import Mathlib

/-!
Shallow embedding of the inventory reconciliation, receipt and login lockout
logic of the public-billing-system repository.

Quantities, prices and discounts are modelled as exact rationals; JS number
arithmetic on them (subtraction, addition, Math.max, parseFloat of an already
numeric value) is translated to the corresponding exact operation.  The remote
document store is modelled as an explicit list of documents threaded through
each operation; the asynchronous writes of a Promise.all are applied
sequentially in list order against snapshots read at the start of the
operation, exactly as the source computes each written value from the snapshot
it fetched.
-/

namespace Billing

/-- A document of the stock collection, with the fields the reconciler reads
and writes (src/src/utils/receiptUtils.js, stock utilities section). -/
structure StockItem where
  id : String
  shopId : String
  name : String
  quantity : ℚ
  quantityUnit : Option String
  deriving DecidableEq, Repr

/-- One line of a receipt as handed to the inventory reconciler
(name, quantity, quantityUnit). -/
structure SoldItem where
  name : String
  quantity : ℚ
  quantityUnit : Option String
  deriving DecidableEq, Repr

/-- updateStockItem (receiptUtils.js lines 216-228): updateDoc on the stock
document with the given id, here restricted to the quantity field, which is
the only field the reconciler ever updates. -/
def updateStockItem (itemId : String) (newQuantity : ℚ) (stock : List StockItem) : List StockItem :=
  stock.map (fun s => if s.id = itemId then { s with quantity := newQuantity } else s)

/-- The snapshot read by query(stockRef, where(shopId == shopId))
(receiptUtils.js lines 245-252 and 281-288). -/
def shopSnapshot (shopId : String) (stock : List StockItem) : List StockItem :=
  stock.filter (fun s => s.shopId == shopId)

/-- stockItems.find(item => item.name === soldItem.name)
(receiptUtils.js lines 256 and 292): strict equality of names. -/
def findStock (stockItems : List StockItem) (n : String) : Option StockItem :=
  stockItems.find? (fun item => item.name == n)

/-- The unit check of receiptUtils.js lines 261 and 296:
!soldItem.quantityUnit || soldItem.quantityUnit === stockItem.quantityUnit.
A missing or empty quantityUnit on the sold line is falsy, hence none. -/
def unitsCompatible (sold : SoldItem) (stockItem : StockItem) : Bool :=
  sold.quantityUnit.isNone || sold.quantityUnit == stockItem.quantityUnit

/-- One element of the updates array of updateStockQuantity
(receiptUtils.js lines 255-268), applied to the current store state:
the written quantity Math.max(0, stockItem.quantity - soldItem.quantity)
is computed from the snapshot fetched at the start of the call. -/
def applySale (snapshot : List StockItem) (stock : List StockItem) (soldItem : SoldItem) : List StockItem :=
  match findStock snapshot soldItem.name with
  | some stockItem =>
    if unitsCompatible soldItem stockItem then
      updateStockItem stockItem.id (max 0 (stockItem.quantity - soldItem.quantity)) stock
    else stock
  | none => stock

/-- updateStockQuantity (receiptUtils.js lines 243-276): fetch the stock of
the shop, then for each sold item write back the clamped decrement. -/
def updateStockQuantity (shopId : String) (items : List SoldItem) (stock : List StockItem) : List StockItem :=
  items.foldl (applySale (shopSnapshot shopId stock)) stock

/-- One element of the updates array of restoreStockQuantity
(receiptUtils.js lines 291-303): the written quantity
stockItem.quantity + parseFloat(receiptItem.quantity) is computed from the
snapshot fetched at the start of the call. -/
def applyRestore (snapshot : List StockItem) (stock : List StockItem) (receiptItem : SoldItem) : List StockItem :=
  match findStock snapshot receiptItem.name with
  | some stockItem =>
    if unitsCompatible receiptItem stockItem then
      updateStockItem stockItem.id (stockItem.quantity + receiptItem.quantity) stock
    else stock
  | none => stock

/-- restoreStockQuantity (receiptUtils.js lines 279-311). -/
def restoreStockQuantity (shopId : String) (items : List SoldItem) (stock : List StockItem) : List StockItem :=
  items.foldl (applyRestore (shopSnapshot shopId stock)) stock

/-- The fields of a receipt document that stock restoration reads. -/
structure Receipt where
  shopId : String
  items : List SoldItem
  deriving DecidableEq, Repr

/-- deleteReceipt (receiptUtils.js lines 55-74) restricted to its effect on
the stock collection: the receipt document itself is removed, and stock is
restored only when the item list is non-empty. -/
def deleteReceipt (r : Receipt) (stock : List StockItem) : List StockItem :=
  if r.items.isEmpty then stock else restoreStockQuantity r.shopId r.items stock

/-- toLowerCase of JS, modelled character-wise (exact on ASCII names). -/
def jsToLower (s : String) : String :=
  ⟨s.data.map Char.toLower⟩

/-- validateInventory (src/src/pages/NewReceipt.js lines 267-298): when the
stock list has loaded, a line is invalid when no stock item matches its name
case-insensitively, or when the matched stock quantity is below the sold
quantity; the receipt form is valid when no line is invalid.  handleSubmit
(lines 343-356) refuses to save the receipt when this returns false. -/
def validateInventory (stockLoaded : Bool) (stockItems : List StockItem) (items : List SoldItem) : Bool :=
  if !stockLoaded then true
  else
    let invalidItems := items.filter (fun item =>
      match stockItems.find? (fun stockItem => jsToLower stockItem.name == jsToLower item.name) with
      | none => true
      | some matchingStock => decide (matchingStock.quantity < item.quantity))
    invalidItems.isEmpty

/-- One stock-affecting operation of the receipt lifecycle: saving a receipt
(updateStockQuantity) or deleting one (deleteReceipt, which restores). -/
inductive StockOp where
  | save (shopId : String) (items : List SoldItem)
  | del (r : Receipt)
  deriving DecidableEq, Repr

/-- Effect of one receipt operation on the stock collection. -/
def applyStockOp (stock : List StockItem) : StockOp → List StockItem
  | .save shopId items => updateStockQuantity shopId items stock
  | .del r => deleteReceipt r stock

/-- Effect of a sequence of receipt saves and deletes on the stock collection. -/
def applyStockOps (ops : List StockOp) (stock : List StockItem) : List StockItem :=
  ops.foldl applyStockOp stock

/-- Restores performed by a delete add the receipt quantities back, so the
nonnegativity invariant needs those quantities to be nonnegative; saves need
no such condition because their writes are clamped. -/
def opRestoresNonneg : StockOp → Prop
  | .save _ _ => True
  | .del r => ∀ it ∈ r.items, 0 ≤ it.quantity

/-- A line of a receipt as read by calculateTotal: parseFloat(item.price) and
parseFloat(item.quantity) modelled as exact rationals. -/
structure ReceiptItem where
  price : ℚ
  quantity : ℚ
  deriving DecidableEq, Repr

/-- A JS value returned by calculateTotal: the number 0 for a missing or
empty list, otherwise the string produced by toFixed(2). -/
inductive CalcResult where
  | num (q : ℚ)
  | str (s : String)
  deriving DecidableEq, Repr

/-- items.reduce((total, item) => total + price * quantity, 0)
(receiptUtils.js line 14). -/
def subtotal (items : List ReceiptItem) : ℚ :=
  items.foldl (fun total item => total + item.price * item.quantity) 0

/-- Number.prototype.toFixed(2) on an exact rational: per the ECMAScript
algorithm, a leading minus sign is emitted for a negative argument, and the
magnitude is rounded half-up to an integer count of hundredths which is then
rendered with exactly two digits after the point. -/
def toFixed2 (x : ℚ) : String :=
  let sign := if x < 0 then "-" else ""
  let n : ℕ := (⌊|x| * 100 + 1 / 2⌋).toNat
  sign ++ toString (n / 100) ++ "." ++ (if n % 100 < 10 then "0" else "") ++ toString (n % 100)

/-- calculateTotal (receiptUtils.js lines 12-17): 0 for a missing or empty
list, otherwise (subtotal - discountAmount).toFixed(2); the discount is
already a rational here, so parseFloat(discount) or 0 is the identity. -/
def calculateTotal (items : Option (List ReceiptItem)) (discount : ℚ) : CalcResult :=
  match items with
  | none => .num 0
  | some l => if l.isEmpty then .num 0 else .str (toFixed2 (subtotal l - discount))

/-- Error codes of the auth service that the two failure trackers inspect. -/
inductive AuthCode where
  | wrongPassword
  | userNotFound
  | other
  deriving DecidableEq, Repr

/-- Outcome of one submission of the login form: either the credentials are
accepted by the auth service, or it rejects them with a code. -/
inductive LoginInput where
  | ok
  | err (c : AuthCode)
  deriving DecidableEq, Repr

/-- A document of the shops collection, with the fields the login flow reads
and writes, plus, for a fixed submitted email, whether the two lookup queries
find this document: foundByEmail for where(email == emailLower) used in
src/src/pages/Login.js, and foundByUserEmail for where(userEmail == email)
used in src/src/contexts/AuthContext.js.  registerShop always writes a
userEmail field; whether an email field is also present depends on the
registration form data. -/
structure ShopAccount where
  failedLoginAttempts : ℕ
  lockedUntil : Option ℤ
  lockDuration : Option ℕ
  accountStatus : String
  status : String
  lockedAt : Option ℤ
  lastLoginAt : Option ℤ
  lastFailedLoginAt : Option ℤ
  foundByEmail : Bool
  foundByUserEmail : Bool
  deriving DecidableEq, Repr

/-- What the login page reports back to the user. -/
inductive LoginOutcome where
  | rejectedLocked
  | success
  | statusError
  | failed
  deriving DecidableEq, Repr

/-- The lock test of Login.js lines 34-44: both lockedUntil and lockDuration
must be present and truthy (a duration of 0 is falsy in JS), and the lock
expiry lockedUntil + lockDuration minutes must be strictly in the future.
Times are epoch milliseconds. -/
def isLockedAt (a : ShopAccount) (t : ℤ) : Bool :=
  match a.lockedUntil, a.lockDuration with
  | some lockTime, some lockDuration =>
    lockDuration != 0 && decide (lockTime + lockDuration * 60000 > t)
  | _, _ => false

/-- The catch branch of AuthContext.login (AuthContext.js lines 78-112): on
auth/wrong-password, when the userEmail query finds the account, increment
failedLoginAttempts, and at 5 or more set accountStatus to locked and replace
the error by a plain Account-locked error carrying no auth code; otherwise
the original coded error propagates. -/
def authContextLoginFail (a : ShopAccount) (now : ℤ) (c : AuthCode) : ShopAccount × Option AuthCode :=
  if c = .wrongPassword ∧ a.foundByUserEmail then
    let currentAttempts := a.failedLoginAttempts
    let a1 := { a with failedLoginAttempts := currentAttempts + 1, lastFailedLoginAt := some now }
    if 5 ≤ currentAttempts + 1 then
      ({ a1 with accountStatus := "locked", lockedAt := some now }, none)
    else (a1, some c)
  else (a, some c)

/-- The success branch of AuthContext.login (AuthContext.js lines 53-77):
reset failedLoginAttempts to 0 when nonzero, and record lastLoginAt. -/
def authContextLoginSuccess (a : ShopAccount) (now : ℤ) : ShopAccount :=
  if a.failedLoginAttempts ≠ 0 then
    { a with failedLoginAttempts := 0, lastLoginAt := some now }
  else { a with lastLoginAt := some now }

/-- The catch branch of the login page handleSubmit (Login.js lines 81-135):
on a coded wrong-password or user-not-found error, when the email query finds
the account, re-read it and increment failedLoginAttempts; at 5 or more also
write lockedUntil = the current server time and lockDuration = 15 minutes.
Errors without an auth code, such as the Account-locked error thrown inside
AuthContext.login, only set a message and write nothing. -/
def loginHandleFail (a : ShopAccount) (now : ℤ) (e : Option AuthCode) : ShopAccount :=
  match e with
  | some c =>
    if (c = .wrongPassword ∨ c = .userNotFound) ∧ a.foundByEmail then
      let failedAttempts := a.failedLoginAttempts + 1
      if 5 ≤ failedAttempts then
        { a with failedLoginAttempts := failedAttempts, lockedUntil := some now,
                 lockDuration := some 15, lastFailedLoginAt := some now }
      else { a with failedLoginAttempts := failedAttempts, lastFailedLoginAt := some now }
    else a
  | none => a

/-- The account state after the success path of Login.js lines 49-62 has run
on top of AuthContext.login: whatever AuthContext wrote, the page then writes
failedLoginAttempts = 0 and lastLoginAt. -/
def loginResetAccount (a : ShopAccount) (now : ℤ) : ShopAccount :=
  { authContextLoginSuccess a now with failedLoginAttempts := 0, lastLoginAt := some now }

/-- The status checks of Login.js lines 64-74: a pending, frozen or rejected
status makes the page report an error (after the counter reset already
happened). -/
def statusBlocked (a : ShopAccount) : Bool :=
  a.status == "pending" || a.status == "frozen" || a.status == "rejected"

/-- handleSubmit of the login page (Login.js lines 16-139) composed with
AuthContext.login: when the email query finds the account and its lock is
unexpired, the attempt is rejected before any credential check or write;
otherwise the auth service is consulted.  On success both layers reset
failedLoginAttempts to 0 and a pending, frozen or rejected status only
changes the reported outcome; on failure the AuthContext tracker runs first
and the page tracker then runs on the rethrown error and the re-read
account. -/
def handleSubmit (a : ShopAccount) (now : ℤ) (input : LoginInput) : ShopAccount × LoginOutcome :=
  if a.foundByEmail ∧ isLockedAt a now then (a, .rejectedLocked)
  else
    match input with
    | .ok =>
      if statusBlocked (loginResetAccount a now)
      then (loginResetAccount a now, .statusError)
      else (loginResetAccount a now, .success)
    | .err c =>
      let p := authContextLoginFail a now c
      (loginHandleFail p.1 now p.2, .failed)

/-- Iterate handleSubmit over a list of timed login inputs, returning the
final account state. -/
def runLogins (a : ShopAccount) (steps : List (ℤ × LoginInput)) : ShopAccount :=
  steps.foldl (fun acc step => (handleSubmit acc step.1 step.2).1) a

/-- Proof-side view of one sale update of updateStockQuantity: the id of the
document written and the value written, when the line matches a stock item of
the snapshot with compatible units; none when the line is skipped. -/
def saleWrite (snapshot : List StockItem) (soldItem : SoldItem) : Option (String × ℚ) :=
  match findStock snapshot soldItem.name with
  | some stockItem =>
    if unitsCompatible soldItem stockItem then
      some (stockItem.id, max 0 (stockItem.quantity - soldItem.quantity))
    else none
  | none => none

/-- Proof-side view of one restore update of restoreStockQuantity. -/
def restoreWrite (snapshot : List StockItem) (receiptItem : SoldItem) : Option (String × ℚ) :=
  match findStock snapshot receiptItem.name with
  | some stockItem =>
    if unitsCompatible receiptItem stockItem then
      some (stockItem.id, stockItem.quantity + receiptItem.quantity)
    else none
  | none => none

/-- Apply one optional blind write to the store. -/
def applyWrite (w : SoldItem → Option (String × ℚ)) (stock : List StockItem) (sold : SoldItem) : List StockItem :=
  match w sold with
  | some p => updateStockItem p.1 p.2 stock
  | none => stock

/-- The last value written to document id i by the lines of items, starting
from a previously accumulated optional write acc. -/
def lastWriteFrom (w : SoldItem → Option (String × ℚ)) (items : List SoldItem) (i : String) (acc : Option ℚ) : Option ℚ :=
  items.foldl (fun a sold =>
    match w sold with
    | some p => if p.1 = i then some p.2 else a
    | none => a) acc

/-- The last value written to document id i by the lines of items, if any. -/
def lastWrite (w : SoldItem → Option (String × ℚ)) (items : List SoldItem) (i : String) : Option ℚ :=
  lastWriteFrom w items i none

/-- Overwrite the quantity of a stock document according to an optional
per-id value. -/
def setQ (f : String → Option ℚ) (e : StockItem) : StockItem :=
  { e with quantity := (f e.id).getD e.quantity }

/-- The quantity of the unique document of the store carrying a given id
(meaningful when ids are nodup). -/
def quantityOf (stock : List StockItem) (i : String) : ℚ :=
  ((stock.find? (fun e => e.id == i)).map StockItem.quantity).getD 0

theorem applySale_eq_applyWrite (snapshot stock : List StockItem) (soldItem : SoldItem) :
    applySale snapshot stock soldItem = applyWrite (saleWrite snapshot) stock soldItem := by
  unfold applySale applyWrite saleWrite
  cases findStock snapshot soldItem.name with
  | none => rfl
  | some s =>
    by_cases h : unitsCompatible soldItem s <;> simp [h]

theorem applyRestore_eq_applyWrite (snapshot stock : List StockItem) (receiptItem : SoldItem) :
    applyRestore snapshot stock receiptItem = applyWrite (restoreWrite snapshot) stock receiptItem := by
  unfold applyRestore applyWrite restoreWrite
  cases findStock snapshot receiptItem.name with
  | none => rfl
  | some s =>
    by_cases h : unitsCompatible receiptItem s <;> simp [h]

theorem setQ_none (e : StockItem) : setQ (fun _ => none) e = e := rfl

theorem map_setQ_none (stock : List StockItem) : stock.map (setQ (fun _ => none)) = stock := by
  have h : setQ (fun _ => none) = id := by
    funext e
    rfl
  rw [h, List.map_id]

theorem lastWriteFrom_cons (w : SoldItem → Option (String × ℚ)) (sold : SoldItem)
    (items : List SoldItem) (i : String) (acc : Option ℚ) :
    lastWriteFrom w (sold :: items) i acc
      = lastWriteFrom w items i
          (match w sold with
           | some p => if p.1 = i then some p.2 else acc
           | none => acc) := by
  simp [lastWriteFrom]

theorem foldl_applyWrite (w : SoldItem → Option (String × ℚ)) (st : List StockItem) :
    ∀ (items : List SoldItem) (acc : String → Option ℚ),
      items.foldl (applyWrite w) (st.map (setQ acc))
        = st.map (setQ (fun i => lastWriteFrom w items i (acc i))) := by
  intro items
  induction items with
  | nil =>
    intro acc
    simp [lastWriteFrom]
  | cons sold items ih =>
    intro acc
    have hstep : applyWrite w (st.map (setQ acc)) sold
        = st.map (setQ (fun i =>
            match w sold with
            | some p => if p.1 = i then some p.2 else acc i
            | none => acc i)) := by
      cases hw : w sold with
      | none => simp [applyWrite, hw]
      | some p =>
        simp only [applyWrite, hw, updateStockItem, List.map_map]
        apply List.map_congr_left
        intro e _
        simp only [Function.comp_apply, setQ]
        rcases eq_or_ne e.id p.1 with h | h
        · simp [h]
        · simp [h, Ne.symm h]
    rw [List.foldl_cons, hstep, ih]
    apply List.map_congr_left
    intro e _
    have : lastWriteFrom w (sold :: items) e.id (acc e.id)
        = lastWriteFrom w items e.id
            (match w sold with
             | some p => if p.1 = e.id then some p.2 else acc e.id
             | none => acc e.id) := lastWriteFrom_cons w sold items e.id (acc e.id)
    simp [setQ, this]

theorem updateStockQuantity_char (shopId : String) (items : List SoldItem) (stock : List StockItem) :
    updateStockQuantity shopId items stock
      = stock.map (setQ (lastWrite (saleWrite (shopSnapshot shopId stock)) items)) := by
  unfold updateStockQuantity
  have hfun : applySale (shopSnapshot shopId stock)
      = applyWrite (saleWrite (shopSnapshot shopId stock)) := by
    funext st sold
    exact applySale_eq_applyWrite (shopSnapshot shopId stock) st sold
  rw [hfun]
  have h0 := foldl_applyWrite (saleWrite (shopSnapshot shopId stock)) stock items (fun _ => none)
  rw [map_setQ_none] at h0
  exact h0

theorem restoreStockQuantity_char (shopId : String) (items : List SoldItem) (stock : List StockItem) :
    restoreStockQuantity shopId items stock
      = stock.map (setQ (lastWrite (restoreWrite (shopSnapshot shopId stock)) items)) := by
  unfold restoreStockQuantity
  have hfun : applyRestore (shopSnapshot shopId stock)
      = applyWrite (restoreWrite (shopSnapshot shopId stock)) := by
    funext st sold
    exact applyRestore_eq_applyWrite (shopSnapshot shopId stock) st sold
  rw [hfun]
  have h0 := foldl_applyWrite (restoreWrite (shopSnapshot shopId stock)) stock items (fun _ => none)
  rw [map_setQ_none] at h0
  exact h0

theorem lastWriteFrom_of_no_key (w : SoldItem → Option (String × ℚ)) (items : List SoldItem)
    (i : String) (acc : Option ℚ)
    (h : ∀ sold ∈ items, ∀ p, w sold = some p → p.1 ≠ i) :
    lastWriteFrom w items i acc = acc := by
  induction items generalizing acc with
  | nil => rfl
  | cons sold items ih =>
    rw [lastWriteFrom_cons]
    cases hw : w sold with
    | none =>
      exact ih acc (fun s hs => h s (List.mem_cons_of_mem sold hs))
    | some p =>
      have hne : p.1 ≠ i := h sold (List.mem_cons_self sold items) p hw
      simp only [hne, if_false]
      exact ih acc (fun s hs => h s (List.mem_cons_of_mem sold hs))

theorem lastWriteFrom_cons_none (w : SoldItem → Option (String × ℚ)) (sold : SoldItem)
    (items : List SoldItem) (i : String) (acc : Option ℚ) (hw : w sold = none) :
    lastWriteFrom w (sold :: items) i acc = lastWriteFrom w items i acc := by
  rw [lastWriteFrom_cons, hw]

theorem lastWriteFrom_cons_some (w : SoldItem → Option (String × ℚ)) (sold : SoldItem)
    (items : List SoldItem) (i : String) (acc : Option ℚ) (p : String × ℚ)
    (hw : w sold = some p) :
    lastWriteFrom w (sold :: items) i acc
      = lastWriteFrom w items i (if p.1 = i then some p.2 else acc) := by
  rw [lastWriteFrom_cons, hw]

theorem lastWriteFrom_values (w : SoldItem → Option (String × ℚ)) (items : List SoldItem)
    (i : String) (acc : Option ℚ) (P : ℚ → Prop)
    (h : ∀ sold ∈ items, ∀ p, w sold = some p → P p.2)
    (hacc : ∀ v, acc = some v → P v) :
    ∀ v, lastWriteFrom w items i acc = some v → P v := by
  induction items generalizing acc with
  | nil => exact hacc
  | cons sold items ih =>
    intro v hv
    cases hw : w sold with
    | none =>
      rw [lastWriteFrom_cons_none w sold items i acc hw] at hv
      exact ih acc (fun s hs => h s (List.mem_cons_of_mem sold hs)) hacc v hv
    | some p =>
      rw [lastWriteFrom_cons_some w sold items i acc p hw] at hv
      refine ih _ (fun s hs => h s (List.mem_cons_of_mem sold hs)) ?_ v hv
      intro u hu
      by_cases hpi : p.1 = i
      · rw [if_pos hpi] at hu
        have hup : u = p.2 := (Option.some_inj.mp hu).symm
        rw [hup]
        exact h sold (List.mem_cons_self sold items) p hw
      · rw [if_neg hpi] at hu
        exact hacc u hu

theorem lastWriteFrom_isSome (w : SoldItem → Option (String × ℚ)) (items : List SoldItem)
    (i : String) (acc : Option ℚ)
    (h : (∃ sold ∈ items, ∃ v, w sold = some (i, v)) ∨ acc.isSome) :
    (lastWriteFrom w items i acc).isSome := by
  induction items generalizing acc with
  | nil =>
    rcases h with ⟨sold, hs, _⟩ | hacc
    · exact absurd hs (List.not_mem_nil sold)
    · exact hacc
  | cons sold items ih =>
    rcases h with ⟨s, hs, v, hsv⟩ | hacc
    · rcases List.mem_cons.mp hs with heq | htail
      · rw [heq] at hsv
        rw [lastWriteFrom_cons_some w sold items i acc (i, v) hsv]
        simp only [if_pos rfl]
        exact ih (some v) (Or.inr rfl)
      · cases hw : w sold with
        | none =>
          rw [lastWriteFrom_cons_none w sold items i acc hw]
          exact ih acc (Or.inl ⟨s, htail, v, hsv⟩)
        | some p =>
          rw [lastWriteFrom_cons_some w sold items i acc p hw]
          exact ih _ (Or.inl ⟨s, htail, v, hsv⟩)
    · cases hw : w sold with
      | none =>
        rw [lastWriteFrom_cons_none w sold items i acc hw]
        exact ih acc (Or.inr hacc)
      | some p =>
        rw [lastWriteFrom_cons_some w sold items i acc p hw]
        by_cases hpi : p.1 = i
        · simp only [if_pos hpi]
          exact ih (some p.2) (Or.inr rfl)
        · simp only [if_neg hpi]
          exact ih acc (Or.inr hacc)

theorem lastWriteFrom_rel (w1 w2 : SoldItem → Option (String × ℚ)) (g : String → ℚ → ℚ)
    (items : List SoldItem)
    (h : ∀ sold ∈ items,
      (w1 sold = none ∧ w2 sold = none) ∨
      ∃ j v, w1 sold = some (j, v) ∧ w2 sold = some (j, g j v)) :
    ∀ (i : String) (acc : Option ℚ),
      lastWriteFrom w2 items i (acc.map (g i)) = (lastWriteFrom w1 items i acc).map (g i) := by
  induction items with
  | nil =>
    intro i acc
    rfl
  | cons sold items ih =>
    intro i acc
    have htail : ∀ s ∈ items,
        (w1 s = none ∧ w2 s = none) ∨
        ∃ j v, w1 s = some (j, v) ∧ w2 s = some (j, g j v) :=
      fun s hs => h s (List.mem_cons_of_mem sold hs)
    rcases h sold (List.mem_cons_self sold items) with ⟨h1, h2⟩ | ⟨j, v, h1, h2⟩
    · rw [lastWriteFrom_cons_none w2 sold items i _ h2,
        lastWriteFrom_cons_none w1 sold items i acc h1]
      exact ih htail i acc
    · rw [lastWriteFrom_cons_some w2 sold items i _ (j, g j v) h2,
        lastWriteFrom_cons_some w1 sold items i acc (j, v) h1]
      by_cases hji : j = i
      · subst hji
        simp only [if_pos rfl]
        have hmap : (some (g j v)) = (some v).map (g j) := rfl
        rw [hmap]
        exact ih htail j (some v)
      · simp only [if_neg hji]
        exact ih htail i acc

theorem find?_id_of_nodup (stock : List StockItem) (m : StockItem)
    (hnd : (stock.map StockItem.id).Nodup) (hm : m ∈ stock) :
    stock.find? (fun e => e.id == m.id) = some m := by
  induction stock with
  | nil => exact absurd hm (List.not_mem_nil m)
  | cons e stock ih =>
    rw [List.map_cons, List.nodup_cons] at hnd
    rcases List.mem_cons.mp hm with heq | htail
    · rw [heq]
      simp [List.find?]
    · have hni : e.id ∉ stock.map StockItem.id := hnd.1
      have hne : (e.id == m.id) = false := by
        by_contra hcontra
        have htrue : (e.id == m.id) = true := by
          cases h2 : (e.id == m.id) with
          | false => exact absurd h2 hcontra
          | true => rfl
        have heq2 : e.id = m.id := beq_iff_eq.mp htrue
        exact hni (heq2 ▸ List.mem_map_of_mem StockItem.id htail)
      rw [List.find?_cons, hne]
      exact ih hnd.2 htail

theorem quantityOf_eq (stock : List StockItem) (m : StockItem)
    (hnd : (stock.map StockItem.id).Nodup) (hm : m ∈ stock) :
    quantityOf stock m.id = m.quantity := by
  unfold quantityOf
  rw [find?_id_of_nodup stock m hnd hm]
  rfl

theorem setQ_comp (f1 f2 : String → Option ℚ) (e : StockItem) :
    setQ f2 (setQ f1 e) = { e with quantity := (f2 e.id).getD ((f1 e.id).getD e.quantity) } := rfl

theorem findStock_map_setQ (snapshot : List StockItem) (f : String → Option ℚ) (n : String) :
    findStock (snapshot.map (setQ f)) n = (findStock snapshot n).map (setQ f) := by
  unfold findStock
  rw [List.find?_map]
  rfl

theorem shopSnapshot_map_setQ (shopId : String) (stock : List StockItem) (f : String → Option ℚ) :
    shopSnapshot shopId (stock.map (setQ f)) = (shopSnapshot shopId stock).map (setQ f) := by
  unfold shopSnapshot
  rw [List.filter_map]
  rfl

theorem restoreWrite_map_setQ (snapshot : List StockItem) (f : String → Option ℚ) (sold : SoldItem) :
    restoreWrite (snapshot.map (setQ f)) sold
      = match findStock snapshot sold.name with
        | some m =>
          if unitsCompatible sold m then
            some (m.id, (f m.id).getD m.quantity + sold.quantity)
          else none
        | none => none := by
  unfold restoreWrite
  rw [findStock_map_setQ]
  cases findStock snapshot sold.name with
  | none => rfl
  | some m => rfl

theorem findStock_some (snapshot : List StockItem) (n : String) (m : StockItem)
    (h : findStock snapshot n = some m) : m ∈ snapshot ∧ m.name = n := by
  unfold findStock at h
  have hp := @List.find?_some _ (fun item => item.name == n) m snapshot h
  exact ⟨List.mem_of_find?_eq_some h, beq_iff_eq.mp hp⟩

theorem saleWrite_some (snapshot : List StockItem) (sold : SoldItem) (p : String × ℚ)
    (h : saleWrite snapshot sold = some p) :
    ∃ m, findStock snapshot sold.name = some m ∧ unitsCompatible sold m = true ∧
      p = (m.id, max 0 (m.quantity - sold.quantity)) := by
  cases hf : findStock snapshot sold.name with
  | none =>
    simp [saleWrite, hf] at h
  | some m =>
    by_cases hu : unitsCompatible sold m = true
    · simp only [saleWrite, hf, hu, if_true] at h
      exact ⟨m, rfl, hu, (Option.some_inj.mp h).symm⟩
    · simp [saleWrite, hf, hu] at h

theorem restoreWrite_some (snapshot : List StockItem) (sold : SoldItem) (p : String × ℚ)
    (h : restoreWrite snapshot sold = some p) :
    ∃ m, findStock snapshot sold.name = some m ∧ unitsCompatible sold m = true ∧
      p = (m.id, m.quantity + sold.quantity) := by
  cases hf : findStock snapshot sold.name with
  | none =>
    simp [restoreWrite, hf] at h
  | some m =>
    by_cases hu : unitsCompatible sold m = true
    · simp only [restoreWrite, hf, hu, if_true] at h
      exact ⟨m, rfl, hu, (Option.some_inj.mp h).symm⟩
    · simp [restoreWrite, hf, hu] at h

theorem eq_of_id_eq (stock : List StockItem) (hnd : (stock.map StockItem.id).Nodup)
    (m e : StockItem) (hm : m ∈ stock) (he : e ∈ stock) (h : m.id = e.id) : m = e := by
  have h1 := find?_id_of_nodup stock m hnd hm
  have h2 := find?_id_of_nodup stock e hnd he
  rw [h] at h1
  rw [h1] at h2
  exact Option.some_inj.mp h2

/-- Claim C5: for every stock item of the fetched snapshot matched by a sold
line with compatible units, the receipt-save decrement writes exactly
max(0, quantity - sold quantity) to that document, a value that is never
negative, even when the sold quantity exceeds the stocked one
(receiptUtils.js lines 258-264). -/
theorem c5_clamped_decrement (snapshot stock : List StockItem) (sold : SoldItem) (m : StockItem)
    (hfind : findStock snapshot sold.name = some m)
    (hunit : unitsCompatible sold m = true) :
    applySale snapshot stock sold
      = updateStockItem m.id (max 0 (m.quantity - sold.quantity)) stock
    ∧ 0 ≤ max 0 (m.quantity - sold.quantity) := by
  constructor
  · simp only [applySale, hfind, hunit, if_true]
  · exact le_max_left 0 _

/-- Witness for C5 at a concrete store: selling 2 of Apple against a stock
of 5 rewrites the document to quantity 3. -/
theorem c5_clamped_decrement_witness :
    applySale [⟨"s1", "shop", "Apple", 5, none⟩] [⟨"s1", "shop", "Apple", 5, none⟩]
        ⟨"Apple", 2, none⟩
      = updateStockItem "s1" (max 0 ((5 : ℚ) - 2)) [⟨"s1", "shop", "Apple", 5, none⟩]
    ∧ 0 ≤ max 0 ((5 : ℚ) - 2) :=
  c5_clamped_decrement [⟨"s1", "shop", "Apple", 5, none⟩] [⟨"s1", "shop", "Apple", 5, none⟩]
    ⟨"Apple", 2, none⟩ ⟨"s1", "shop", "Apple", 5, none⟩ (by decide) (by decide)

/-- Counterexample to claim C4: the reconciler matches by strict (===) name
equality, not case-insensitively.  A sold line named apple against a stock
item named Apple, in the same shop with compatible units, leaves the stock
untouched: no decrement happens although the names agree up to letter case. -/
theorem c4_counterexample :
    jsToLower "apple" = jsToLower "Apple"
  ∧ updateStockQuantity "shop" [⟨"apple", 2, none⟩] [⟨"s1", "shop", "Apple", 5, none⟩]
      = [⟨"s1", "shop", "Apple", 5, none⟩] := by
  constructor
  · decide
  · decide

/-- Claim C4 as amended: the inventory reconciler selects the stock item to
adjust by exact, case-sensitive string equality of names
(stockItems.find(item => item.name === soldItem.name), receiptUtils.js
lines 256 and 292): a found item always carries exactly the sold name, and
when no stock item of the shop snapshot bears exactly a sold name, neither
the save decrement nor the delete restore changes the store at all. -/
theorem c4_exact_match :
    (∀ (snapshot : List StockItem) (n : String) (m : StockItem),
        findStock snapshot n = some m → m.name = n)
  ∧ (∀ (shopId : String) (items : List SoldItem) (stock : List StockItem),
        (∀ sold ∈ items, findStock (shopSnapshot shopId stock) sold.name = none) →
        updateStockQuantity shopId items stock = stock)
  ∧ (∀ (shopId : String) (items : List SoldItem) (stock : List StockItem),
        (∀ sold ∈ items, findStock (shopSnapshot shopId stock) sold.name = none) →
        restoreStockQuantity shopId items stock = stock) := by
  refine ⟨?_, ?_, ?_⟩
  · intro snapshot n m h
    exact (findStock_some snapshot n m h).2
  · intro shopId items stock h
    rw [updateStockQuantity_char]
    have hz : ∀ i, lastWrite (saleWrite (shopSnapshot shopId stock)) items i = none := by
      intro i
      apply lastWriteFrom_of_no_key
      intro sold hs p hp
      have hw : saleWrite (shopSnapshot shopId stock) sold = none := by
        unfold saleWrite
        rw [h sold hs]
      rw [hw] at hp
      exact absurd hp (Option.noConfusion)
    have hfun : setQ (lastWrite (saleWrite (shopSnapshot shopId stock)) items)
        = setQ (fun _ => none) := by
      unfold setQ
      funext e
      rw [hz e.id]
    rw [hfun, map_setQ_none]
  · intro shopId items stock h
    rw [restoreStockQuantity_char]
    have hz : ∀ i, lastWrite (restoreWrite (shopSnapshot shopId stock)) items i = none := by
      intro i
      apply lastWriteFrom_of_no_key
      intro sold hs p hp
      have hw : restoreWrite (shopSnapshot shopId stock) sold = none := by
        unfold restoreWrite
        rw [h sold hs]
      rw [hw] at hp
      exact absurd hp (Option.noConfusion)
    have hfun : setQ (lastWrite (restoreWrite (shopSnapshot shopId stock)) items)
        = setQ (fun _ => none) := by
      unfold setQ
      funext e
      rw [hz e.id]
    rw [hfun, map_setQ_none]

theorem get_of_eq_map {l l2 : List StockItem} {f : StockItem → StockItem}
    (h : l2 = l.map f) (j : ℕ) (hj : j < l.length) (hj2 : j < l2.length) :
    l2.get ⟨j, hj2⟩ = f (l.get ⟨j, hj⟩) := by
  subst h
  simp [List.get_eq_getElem, List.getElem_map]

theorem saleWrite_key_name (snapshot : List StockItem) (sold : SoldItem) (p : String × ℚ)
    (h : saleWrite snapshot sold = some p) :
    ∃ m ∈ snapshot, p.1 = m.id ∧ m.name = sold.name := by
  obtain ⟨m, hfind, _, hpm⟩ := saleWrite_some snapshot sold p h
  obtain ⟨hmem, hname⟩ := findStock_some snapshot sold.name m hfind
  exact ⟨m, hmem, by rw [hpm], hname⟩

theorem restoreWrite_key_name (snapshot : List StockItem) (sold : SoldItem) (p : String × ℚ)
    (h : restoreWrite snapshot sold = some p) :
    ∃ m ∈ snapshot, p.1 = m.id ∧ m.name = sold.name := by
  obtain ⟨m, hfind, _, hpm⟩ := restoreWrite_some snapshot sold p h
  obtain ⟨hmem, hname⟩ := findStock_some snapshot sold.name m hfind
  exact ⟨m, hmem, by rw [hpm], hname⟩

theorem lastWrite_none_of_name_not_sold (stock : List StockItem) (shopId : String)
    (items : List SoldItem) (e : StockItem)
    (hnd : (stock.map StockItem.id).Nodup) (he : e ∈ stock)
    (hname : e.name ∉ items.map SoldItem.name)
    (w : SoldItem → Option (String × ℚ))
    (hw : ∀ sold p, w sold = some p → ∃ m ∈ shopSnapshot shopId stock, p.1 = m.id ∧ m.name = sold.name) :
    lastWrite w items e.id = none := by
  apply lastWriteFrom_of_no_key
  intro sold hs p hp hpe
  obtain ⟨m, hmem, hpm, hmname⟩ := hw sold p hp
  have hmstock : m ∈ stock := List.mem_of_mem_filter hmem
  have hme : m = e := eq_of_id_eq stock hnd m e hmstock he (by rw [← hpm, hpe])
  apply hname
  rw [← hme, hmname]
  exact List.mem_map_of_mem SoldItem.name hs

/-- Claim C9: frame property of stock reconciliation.  With distinct stock
document ids, a stock item whose name equals no item name of the processed
receipt is left entirely unchanged, at its position, by both the save
decrement and the delete restore: only stock items matched by name are ever
written (receiptUtils.js lines 254-271 and 290-306). -/
theorem c9_frame (shopId : String) (items : List SoldItem) (stock : List StockItem)
    (hnd : (stock.map StockItem.id).Nodup)
    (j : ℕ) (hj : j < stock.length)
    (hj1 : j < (updateStockQuantity shopId items stock).length)
    (hj2 : j < (restoreStockQuantity shopId items stock).length)
    (hname : (stock.get ⟨j, hj⟩).name ∉ items.map SoldItem.name) :
    (updateStockQuantity shopId items stock).get ⟨j, hj1⟩ = stock.get ⟨j, hj⟩
    ∧ (restoreStockQuantity shopId items stock).get ⟨j, hj2⟩ = stock.get ⟨j, hj⟩ := by
  have he : stock.get ⟨j, hj⟩ ∈ stock := stock.get_mem j hj
  constructor
  · rw [get_of_eq_map (updateStockQuantity_char shopId items stock) j hj hj1]
    have hz := lastWrite_none_of_name_not_sold stock shopId items (stock.get ⟨j, hj⟩) hnd he
      hname (saleWrite (shopSnapshot shopId stock))
      (fun sold p hp => saleWrite_key_name (shopSnapshot shopId stock) sold p hp)
    simp only [List.get_eq_getElem] at hz
    simp [setQ, hz]
  · rw [get_of_eq_map (restoreStockQuantity_char shopId items stock) j hj hj2]
    have hz := lastWrite_none_of_name_not_sold stock shopId items (stock.get ⟨j, hj⟩) hnd he
      hname (restoreWrite (shopSnapshot shopId stock))
      (fun sold p hp => restoreWrite_key_name (shopSnapshot shopId stock) sold p hp)
    simp only [List.get_eq_getElem] at hz
    simp [setQ, hz]

/-- Witness for C9: a sale of Banana leaves the Apple document unchanged in
both directions. -/
theorem c9_frame_witness :
    (updateStockQuantity "shop" [⟨"Banana", 2, none⟩]
        [⟨"s1", "shop", "Apple", 5, none⟩, ⟨"s2", "shop", "Banana", 7, none⟩]).get ⟨0, by decide⟩
      = ([⟨"s1", "shop", "Apple", 5, none⟩, ⟨"s2", "shop", "Banana", 7, none⟩] : List StockItem).get ⟨0, by decide⟩
    ∧ (restoreStockQuantity "shop" [⟨"Banana", 2, none⟩]
        [⟨"s1", "shop", "Apple", 5, none⟩, ⟨"s2", "shop", "Banana", 7, none⟩]).get ⟨0, by decide⟩
      = ([⟨"s1", "shop", "Apple", 5, none⟩, ⟨"s2", "shop", "Banana", 7, none⟩] : List StockItem).get ⟨0, by decide⟩ :=
  c9_frame "shop" [⟨"Banana", 2, none⟩]
    [⟨"s1", "shop", "Apple", 5, none⟩, ⟨"s2", "shop", "Banana", 7, none⟩]
    (by decide) 0 (by decide) (by decide) (by decide) (by decide)

theorem updateStockQuantity_nonneg (shopId : String) (items : List SoldItem)
    (stock : List StockItem) (h : ∀ e ∈ stock, 0 ≤ e.quantity) :
    ∀ e ∈ updateStockQuantity shopId items stock, 0 ≤ e.quantity := by
  rw [updateStockQuantity_char]
  intro e2 he2
  obtain ⟨e, he, rfl⟩ := List.mem_map.mp he2
  show 0 ≤ (lastWrite (saleWrite (shopSnapshot shopId stock)) items e.id).getD e.quantity
  cases hL : lastWrite (saleWrite (shopSnapshot shopId stock)) items e.id with
  | none => simpa using h e he
  | some v =>
    have hval : 0 ≤ v := by
      refine lastWriteFrom_values _ items e.id none (fun q => 0 ≤ q) ?_ ?_ v hL
      · intro sold hs p hp
        obtain ⟨m, hfind, hu, hpm⟩ := saleWrite_some _ _ _ hp
        rw [hpm]
        exact le_max_left 0 _
      · intro u hu
        exact absurd hu (Option.noConfusion)
    simpa using hval

theorem restoreStockQuantity_nonneg (shopId : String) (items : List SoldItem)
    (stock : List StockItem) (hitems : ∀ it ∈ items, 0 ≤ it.quantity)
    (h : ∀ e ∈ stock, 0 ≤ e.quantity) :
    ∀ e ∈ restoreStockQuantity shopId items stock, 0 ≤ e.quantity := by
  rw [restoreStockQuantity_char]
  intro e2 he2
  obtain ⟨e, he, rfl⟩ := List.mem_map.mp he2
  show 0 ≤ (lastWrite (restoreWrite (shopSnapshot shopId stock)) items e.id).getD e.quantity
  cases hL : lastWrite (restoreWrite (shopSnapshot shopId stock)) items e.id with
  | none => simpa using h e he
  | some v =>
    have hval : 0 ≤ v := by
      refine lastWriteFrom_values _ items e.id none (fun q => 0 ≤ q) ?_ ?_ v hL
      · intro sold hs p hp
        obtain ⟨m, hfind, hu, hpm⟩ := restoreWrite_some _ _ _ hp
        obtain ⟨hmem, _⟩ := findStock_some _ _ _ hfind
        have hm : 0 ≤ m.quantity := h m (List.mem_of_mem_filter hmem)
        have hd : 0 ≤ sold.quantity := hitems sold hs
        rw [hpm]
        exact add_nonneg hm hd
      · intro u hu
        exact absurd hu (Option.noConfusion)
    simpa using hval

theorem applyStockOp_nonneg (stock : List StockItem) (op : StockOp)
    (hop : opRestoresNonneg op) (h : ∀ e ∈ stock, 0 ≤ e.quantity) :
    ∀ e ∈ applyStockOp stock op, 0 ≤ e.quantity := by
  cases op with
  | save shopId items => exact updateStockQuantity_nonneg shopId items stock h
  | del r =>
    by_cases hempty : r.items.isEmpty = true
    · simpa [applyStockOp, deleteReceipt, hempty] using h
    · simp only [applyStockOp, deleteReceipt, hempty, if_false]
      exact restoreStockQuantity_nonneg r.shopId r.items stock hop h

/-- Counterexample to claim C6: a receipt line selling more than the stocked
quantity is not accepted when the stock list has loaded: validateInventory
flags it, and handleSubmit of the receipt page then refuses to save the
receipt (NewReceipt.js lines 281-287 and 343-356).  Selling 10 Apples
against a stock of 5 is refused, not accepted-and-clamped. -/
theorem c6_counterexample :
    (5 : ℚ) < 10
  ∧ validateInventory true [⟨"s1", "shop", "Apple", 5, none⟩] [⟨"Apple", 10, none⟩] = false := by
  constructor
  · norm_num
  · decide

/-- Claim C6 as amended: the invariant quantity ≥ 0 does hold for every stock
item after any sequence of receipt saves and deletes (with the receipt
quantities restored by deletes nonnegative), enforced by clamping on
decrement; but over-sell is not always accepted: the pre-save validation
rejects a line selling more than the stocked quantity whenever the stock
list has loaded, and only when it has not loaded (stockLoaded false) is any
receipt, over-selling or not, accepted and the decrement clamped. -/
theorem c6_amended :
    (∀ (ops : List StockOp) (stock : List StockItem),
        (∀ op ∈ ops, opRestoresNonneg op) →
        (∀ e ∈ stock, 0 ≤ e.quantity) →
        ∀ e ∈ applyStockOps ops stock, 0 ≤ e.quantity)
  ∧ (∀ (stockItems : List StockItem) (items : List SoldItem),
        validateInventory false stockItems items = true) := by
  constructor
  · intro ops
    induction ops with
    | nil =>
      intro stock _ h
      exact h
    | cons op ops ih =>
      intro stock hops h
      have hstep := applyStockOp_nonneg stock op (hops op (List.mem_cons_self op ops)) h
      exact ih (applyStockOp stock op) (fun o ho => hops o (List.mem_cons_of_mem op ho)) hstep
  · intro stockItems items
    rfl

/-- Witness for the amended C6: after over-selling 10 Apples against a stock
of 5, the clamped document quantity 0 is still nonnegative; and with the
stock list not loaded the over-selling receipt passes validation. -/
theorem c6_amended_witness :
    0 ≤ (⟨"s1", "shop", "Apple", 0, none⟩ : StockItem).quantity
  ∧ validateInventory false [⟨"s1", "shop", "Apple", 5, none⟩] [⟨"Apple", 10, none⟩] = true :=
  ⟨c6_amended.1 [.save "shop" [⟨"Apple", 10, none⟩]] [⟨"s1", "shop", "Apple", 5, none⟩]
      (by
        intro op hop
        have hop2 : op = .save "shop" [⟨"Apple", 10, none⟩] := by simpa using hop
        rw [hop2]
        trivial)
      (by
        intro e he
        have he2 : e = ⟨"s1", "shop", "Apple", 5, none⟩ := by simpa using he
        rw [he2]
        norm_num)
      ⟨"s1", "shop", "Apple", 0, none⟩
      (by
        have hres : applyStockOps [.save "shop" [⟨"Apple", 10, none⟩]]
            [⟨"s1", "shop", "Apple", 5, none⟩] = [⟨"s1", "shop", "Apple", 0, none⟩] := by
          simp [applyStockOps, applyStockOp, updateStockQuantity, applySale,
            findStock, shopSnapshot, unitsCompatible, updateStockItem]
          norm_num
        rw [hres]
        exact List.mem_singleton_self _),
   c6_amended.2 [⟨"s1", "shop", "Apple", 5, none⟩] [⟨"Apple", 10, none⟩]⟩

/-- Counterexample to claim C1: the round trip is not the identity for every
receipt whose items match by name with compatible units.  Selling 10 Apples
against a stock of 5 decrements by only 5 (the write is clamped at 0), but
deleting the receipt restores the full 10, leaving a quantity of 10 instead
of the pre-sale 5. -/
theorem c1_counterexample :
    (∃ m, findStock (shopSnapshot "shop" [⟨"s1", "shop", "Apple", 5, none⟩]) "Apple" = some m
        ∧ unitsCompatible ⟨"Apple", 10, none⟩ m = true)
  ∧ deleteReceipt ⟨"shop", [⟨"Apple", 10, none⟩]⟩
      (updateStockQuantity "shop" [⟨"Apple", 10, none⟩] [⟨"s1", "shop", "Apple", 5, none⟩])
      ≠ [⟨"s1", "shop", "Apple", 5, none⟩] := by
  constructor
  · exact ⟨⟨"s1", "shop", "Apple", 5, none⟩, by decide, by decide⟩
  · simp [deleteReceipt, updateStockQuantity, restoreStockQuantity, applySale, applyRestore,
      findStock, shopSnapshot, unitsCompatible, updateStockItem]
    norm_num

/-- Claim C1 as amended: with distinct stock document ids, for every receipt
whose items each match a stock item of the shop snapshot by name with
compatible units AND whose sold quantities do not exceed the matched stocked
quantities (so that no decrement is clamped), deleting the receipt restores
exactly what saving it subtracted: the stock returns to its pre-sale state. -/
theorem c1_amended (shopId : String) (items : List SoldItem) (stock : List StockItem)
    (hnd : (stock.map StockItem.id).Nodup)
    (hmatch : ∀ sold ∈ items, ∃ m,
        findStock (shopSnapshot shopId stock) sold.name = some m ∧
        unitsCompatible sold m = true ∧ sold.quantity ≤ m.quantity) :
    deleteReceipt ⟨shopId, items⟩ (updateStockQuantity shopId items stock) = stock := by
  by_cases hempty : items.isEmpty = true
  · have hitems : items = [] := List.isEmpty_iff.mp hempty
    subst hitems
    simp [deleteReceipt, updateStockQuantity]
  · have hdel : deleteReceipt ⟨shopId, items⟩ (updateStockQuantity shopId items stock)
        = restoreStockQuantity shopId items (updateStockQuantity shopId items stock) := by
      unfold deleteReceipt
      rw [if_neg hempty]
    rw [hdel, updateStockQuantity_char,
      restoreStockQuantity_char shopId items
        (stock.map (setQ (lastWrite (saleWrite (shopSnapshot shopId stock)) items))),
      shopSnapshot_map_setQ]
    have hrel : ∀ sold ∈ items,
        (saleWrite (shopSnapshot shopId stock) sold = none ∧
          restoreWrite ((shopSnapshot shopId stock).map
            (setQ (lastWrite (saleWrite (shopSnapshot shopId stock)) items))) sold = none) ∨
        ∃ j v, saleWrite (shopSnapshot shopId stock) sold = some (j, v) ∧
          restoreWrite ((shopSnapshot shopId stock).map
            (setQ (lastWrite (saleWrite (shopSnapshot shopId stock)) items))) sold
            = some (j, (fun i u => (lastWrite (saleWrite (shopSnapshot shopId stock)) items i).getD 0
                + (quantityOf stock i - u)) j v) := by
      intro sold hs
      obtain ⟨m, hfind, hu, hle⟩ := hmatch sold hs
      right
      refine ⟨m.id, max 0 (m.quantity - sold.quantity), ?_, ?_⟩
      · simp only [saleWrite, hfind, hu, if_true]
      · rw [restoreWrite_map_setQ]
        simp only [hfind, hu, if_true]
        have hmax : max 0 (m.quantity - sold.quantity) = m.quantity - sold.quantity :=
          max_eq_right (sub_nonneg.mpr hle)
        have hsw : saleWrite (shopSnapshot shopId stock) sold
            = some (m.id, max 0 (m.quantity - sold.quantity)) := by
          simp only [saleWrite, hfind, hu, if_true]
        have hsome : (lastWrite (saleWrite (shopSnapshot shopId stock)) items m.id).isSome :=
          lastWriteFrom_isSome (saleWrite (shopSnapshot shopId stock)) items m.id none
            (Or.inl ⟨sold, hs, max 0 (m.quantity - sold.quantity), hsw⟩)
        obtain ⟨u, hu2⟩ := Option.isSome_iff_exists.mp hsome
        have hmmem : m ∈ stock :=
          List.mem_of_mem_filter (findStock_some (shopSnapshot shopId stock) sold.name m hfind).1
        have hq : quantityOf stock m.id = m.quantity := quantityOf_eq stock m hnd hmmem
        rw [hu2, Option.getD_some, Option.getD_some, hq, hmax]
        have : u + sold.quantity = u + (m.quantity - (m.quantity - sold.quantity)) := by ring
        rw [this]
    have hLrel : ∀ i, lastWrite (restoreWrite ((shopSnapshot shopId stock).map
          (setQ (lastWrite (saleWrite (shopSnapshot shopId stock)) items)))) items i
        = (lastWrite (saleWrite (shopSnapshot shopId stock)) items i).map
            (fun u => (lastWrite (saleWrite (shopSnapshot shopId stock)) items i).getD 0
              + (quantityOf stock i - u)) := by
      intro i
      have h := lastWriteFrom_rel (saleWrite (shopSnapshot shopId stock))
        (restoreWrite ((shopSnapshot shopId stock).map
          (setQ (lastWrite (saleWrite (shopSnapshot shopId stock)) items))))
        (fun i u => (lastWrite (saleWrite (shopSnapshot shopId stock)) items i).getD 0
          + (quantityOf stock i - u))
        items hrel i none
      simpa using h
    rw [List.map_map]
    have hid : ∀ e ∈ stock,
        (setQ (lastWrite (restoreWrite ((shopSnapshot shopId stock).map
            (setQ (lastWrite (saleWrite (shopSnapshot shopId stock)) items)))) items) ∘
          setQ (lastWrite (saleWrite (shopSnapshot shopId stock)) items)) e = e := by
      intro e he
      simp only [Function.comp_apply]
      rw [setQ_comp, hLrel e.id]
      cases hL : lastWrite (saleWrite (shopSnapshot shopId stock)) items e.id with
      | none => simp
      | some v =>
        have hqe : quantityOf stock e.id = e.quantity := quantityOf_eq stock e hnd he
        simp only [Option.map_some', Option.getD_some, hL, hqe]
        have hval : v + (e.quantity - v) = e.quantity := by ring
        rw [hval]
    rw [List.map_congr_left hid]
    simp

/-- Witness for the amended C1: selling 3 Apples out of 5 and deleting the
receipt returns the store to its original state. -/
theorem c1_amended_witness :
    deleteReceipt ⟨"shop", [⟨"Apple", 3, none⟩]⟩
      (updateStockQuantity "shop" [⟨"Apple", 3, none⟩] [⟨"s1", "shop", "Apple", 5, none⟩])
      = [⟨"s1", "shop", "Apple", 5, none⟩] :=
  c1_amended "shop" [⟨"Apple", 3, none⟩] [⟨"s1", "shop", "Apple", 5, none⟩] (by decide)
    (by
      intro sold hs
      have hs2 : sold = ⟨"Apple", 3, none⟩ := by simpa using hs
      rw [hs2]
      exact ⟨⟨"s1", "shop", "Apple", 5, none⟩, by decide, by decide, by norm_num⟩)

theorem handleSubmit_locked (a : ShopAccount) (now : ℤ) (input : LoginInput)
    (h : a.foundByEmail = true ∧ isLockedAt a now = true) :
    handleSubmit a now input = (a, .rejectedLocked) := by
  unfold handleSubmit
  rw [if_pos h]

theorem handleSubmit_ok_eq (a : ShopAccount) (now : ℤ) :
    handleSubmit a now .ok
      = if a.foundByEmail = true ∧ isLockedAt a now = true then (a, .rejectedLocked)
        else if statusBlocked (loginResetAccount a now)
          then (loginResetAccount a now, .statusError)
          else (loginResetAccount a now, .success) := rfl

theorem handleSubmit_err_eq (a : ShopAccount) (now : ℤ) (c : AuthCode) :
    handleSubmit a now (.err c)
      = if a.foundByEmail = true ∧ isLockedAt a now = true then (a, .rejectedLocked)
        else (loginHandleFail (authContextLoginFail a now c).1 now
            (authContextLoginFail a now c).2, .failed) := rfl

theorem handleSubmit_ok_fst (a : ShopAccount) (now : ℤ)
    (h : ¬(a.foundByEmail = true ∧ isLockedAt a now = true)) :
    (handleSubmit a now .ok).1 = loginResetAccount a now := by
  rw [handleSubmit_ok_eq, if_neg h]
  split <;> rfl

theorem loginHandleFail_some (a : ShopAccount) (now : ℤ) (c : AuthCode) :
    loginHandleFail a now (some c)
      = if (c = .wrongPassword ∨ c = .userNotFound) ∧ a.foundByEmail = true then
          (if 5 ≤ a.failedLoginAttempts + 1 then
            { a with failedLoginAttempts := a.failedLoginAttempts + 1, lockedUntil := some now, lockDuration := some 15, lastFailedLoginAt := some now }
          else
            { a with failedLoginAttempts := a.failedLoginAttempts + 1, lastFailedLoginAt := some now })
        else a := rfl

theorem loginResetAccount_attempts (a : ShopAccount) (now : ℤ) :
    (loginResetAccount a now).failedLoginAttempts = 0 := rfl

theorem loginResetAccount_lock (a : ShopAccount) (now : ℤ) :
    (loginResetAccount a now).lockedUntil = a.lockedUntil
    ∧ (loginResetAccount a now).lockDuration = a.lockDuration := by
  unfold loginResetAccount authContextLoginSuccess
  split <;> exact ⟨rfl, rfl⟩

/-- Claim C3: an account whose document is found by the email lookup and
whose lock is unexpired at the attempt time is rejected before any
credential check, with the account document entirely unchanged: in
particular failedLoginAttempts is not incremented (Login.js lines 29-46). -/
theorem c3_locked_rejected (a : ShopAccount) (now : ℤ) (input : LoginInput)
    (hfound : a.foundByEmail = true) (hlock : isLockedAt a now = true) :
    handleSubmit a now input = (a, .rejectedLocked) :=
  handleSubmit_locked a now input ⟨hfound, hlock⟩

/-- Witness for C3: a sixth attempt against an account locked at time 0 with
a 15 minute duration, made at time 5 ms, is rejected unchanged. -/
theorem c3_locked_rejected_witness :
    handleSubmit ⟨5, some 0, some 15, "active", "active", some 0, none, some 0, true, true⟩
        5 (.err .wrongPassword)
      = (⟨5, some 0, some 15, "active", "active", some 0, none, some 0, true, true⟩,
          .rejectedLocked) :=
  c3_locked_rejected ⟨5, some 0, some 15, "active", "active", some 0, none, some 0, true, true⟩
    5 (.err .wrongPassword) rfl (by decide)

/-- Claim C8: any login attempt whose credentials the auth service accepts
and which is not rejected up front by the lock check leaves
failedLoginAttempts at 0, whatever its previous value: both
AuthContext.login (lines 56-74) and the login page (lines 51-62) write 0. -/
theorem c8_success_resets (a : ShopAccount) (now : ℤ)
    (h : (handleSubmit a now .ok).2 ≠ .rejectedLocked) :
    ((handleSubmit a now .ok).1).failedLoginAttempts = 0 := by
  by_cases hc : a.foundByEmail = true ∧ isLockedAt a now = true
  · exfalso
    apply h
    rw [handleSubmit_locked a now .ok hc]
  · rw [handleSubmit_ok_fst a now hc]
    exact loginResetAccount_attempts a now

/-- Witness for C8: an account with 4 failed attempts on record has the
counter reset to 0 by a successful login. -/
theorem c8_success_resets_witness :
    ((handleSubmit ⟨4, none, none, "active", "active", none, none, none, true, true⟩
        0 .ok).1).failedLoginAttempts = 0 :=
  c8_success_resets ⟨4, none, none, "active", "active", none, none, none, true, true⟩ 0
    (by decide)

/-- Counterexample to claim C2: for an account found by both lookups (every
account registered through registerShop carries the userEmail field that the
AuthContext lookup queries), each wrong-password attempt is counted by BOTH
trackers, so the threshold is hit on the third attempt and the lock is
applied by AuthContext as accountStatus locked with no expiry; the
Account-locked error it throws carries no auth code, so the login page never
writes lockedUntil/lockDuration.  After 5 consecutive failures from a fresh
active account the wall-clock lock of the claim is not in place at all:
lockedUntil is absent and the account is not locked-with-15-minute-expiry,
while failedLoginAttempts has reached 7, not 5. -/
theorem c2_counterexample :
    isLockedAt ⟨0, none, none, "active", "active", none, none, none, true, true⟩ 0 = false
  ∧ (runLogins ⟨0, none, none, "active", "active", none, none, none, true, true⟩
      [(0, .err .wrongPassword), (1, .err .wrongPassword), (2, .err .wrongPassword),
       (3, .err .wrongPassword), (4, .err .wrongPassword)]).lockedUntil = none
  ∧ (runLogins ⟨0, none, none, "active", "active", none, none, none, true, true⟩
      [(0, .err .wrongPassword), (1, .err .wrongPassword), (2, .err .wrongPassword),
       (3, .err .wrongPassword), (4, .err .wrongPassword)]).lockDuration = none
  ∧ isLockedAt (runLogins ⟨0, none, none, "active", "active", none, none, none, true, true⟩
      [(0, .err .wrongPassword), (1, .err .wrongPassword), (2, .err .wrongPassword),
       (3, .err .wrongPassword), (4, .err .wrongPassword)]) 4 = false
  ∧ (runLogins ⟨0, none, none, "active", "active", none, none, none, true, true⟩
      [(0, .err .wrongPassword), (1, .err .wrongPassword), (2, .err .wrongPassword),
       (3, .err .wrongPassword), (4, .err .wrongPassword)]).failedLoginAttempts = 7 := by
  decide

/-- Claim C2 as amended: when only the login page tracker responds to the
failures, i.e. the account is found by the email lookup but the AuthContext
tracker does not fire (either the auth error is user-not-found, which it
ignores, or its userEmail lookup misses the account), the 5th consecutive
failed attempt on an unlocked account writes lockedUntil = now and
lockDuration = 15, so the account is locked exactly for the 15 minutes after
the attempt, returns to (derived) active at expiry, and a successful login
after expiry leaves it active with failedLoginAttempts reset to 0. -/
theorem c2_amended (a : ShopAccount) (now : ℤ) (c : AuthCode)
    (hcode : c = .userNotFound ∨ (c = .wrongPassword ∧ a.foundByUserEmail = false))
    (hfound : a.foundByEmail = true)
    (hcount : a.failedLoginAttempts = 4)
    (hactive : isLockedAt a now = false) :
    ((handleSubmit a now (.err c)).1).lockedUntil = some now
    ∧ ((handleSubmit a now (.err c)).1).lockDuration = some 15
    ∧ ((handleSubmit a now (.err c)).1).failedLoginAttempts = 5
    ∧ (∀ t : ℤ, isLockedAt (handleSubmit a now (.err c)).1 t = true ↔ t < now + 15 * 60000)
    ∧ (∀ t : ℤ, now + 15 * 60000 ≤ t →
        isLockedAt ((handleSubmit (handleSubmit a now (.err c)).1 t .ok).1) t = false
        ∧ ((handleSubmit (handleSubmit a now (.err c)).1 t .ok).1).failedLoginAttempts = 0) := by
  have hgate : ¬(a.foundByEmail = true ∧ isLockedAt a now = true) := by
    rintro ⟨_, h2⟩
    rw [hactive] at h2
    exact Bool.false_ne_true h2
  have hac : authContextLoginFail a now c = (a, some c) := by
    unfold authContextLoginFail
    have hcond : ¬(c = .wrongPassword ∧ a.foundByUserEmail = true) := by
      rcases hcode with h | ⟨h1, h2⟩
      · rintro ⟨hcw, _⟩
        rw [h] at hcw
        exact AuthCode.noConfusion hcw
      · rintro ⟨_, hf⟩
        rw [h2] at hf
        exact Bool.false_ne_true hf
    rw [if_neg hcond]
  have hlh : loginHandleFail a now (some c)
      = { a with failedLoginAttempts := 5, lockedUntil := some now, lockDuration := some 15, lastFailedLoginAt := some now } := by
    have hcond : (c = .wrongPassword ∨ c = .userNotFound) ∧ a.foundByEmail = true := by
      constructor
      · rcases hcode with h | ⟨h1, _⟩
        · exact Or.inr h
        · exact Or.inl h1
      · exact hfound
    rw [loginHandleFail_some, if_pos hcond, hcount]
    norm_num
  have hmain : handleSubmit a now (.err c)
      = ({ a with failedLoginAttempts := 5, lockedUntil := some now, lockDuration := some 15, lastFailedLoginAt := some now }, .failed) := by
    rw [handleSubmit_err_eq, if_neg hgate, hac]
    exact congrArg (fun x => (x, LoginOutcome.failed)) hlh
  rw [hmain]
  refine ⟨rfl, rfl, rfl, ?_, ?_⟩
  · intro t
    simp only [isLockedAt]
    rw [Bool.and_eq_true]
    simp only [bne_iff_ne, ne_eq, decide_eq_true_eq]
    constructor
    · rintro ⟨-, h2⟩
      omega
    · intro h
      exact ⟨by decide, by omega⟩
  · intro t ht
    have hnl : isLockedAt
        ({ a with failedLoginAttempts := 5, lockedUntil := some now, lockDuration := some 15, lastFailedLoginAt := some now } : ShopAccount) t = false := by
      simp only [isLockedAt]
      rw [Bool.and_eq_false_iff]
      right
      rw [decide_eq_false_iff_not]
      omega
    have hgate2 : ¬(({ a with failedLoginAttempts := 5, lockedUntil := some now, lockDuration := some 15, lastFailedLoginAt := some now } : ShopAccount).foundByEmail = true
        ∧ isLockedAt ({ a with failedLoginAttempts := 5, lockedUntil := some now, lockDuration := some 15, lastFailedLoginAt := some now } : ShopAccount) t = true) := by
      rintro ⟨-, h2⟩
      rw [hnl] at h2
      exact Bool.false_ne_true h2
    rw [handleSubmit_ok_fst _ t hgate2]
    constructor
    · have hfr := loginResetAccount_lock
        ({ a with failedLoginAttempts := 5, lockedUntil := some now, lockDuration := some 15, lastFailedLoginAt := some now } : ShopAccount) t
      unfold isLockedAt
      rw [hfr.1, hfr.2]
      rw [Bool.and_eq_false_iff]
      right
      rw [decide_eq_false_iff_not]
      omega
    · exact loginResetAccount_attempts _ t

/-- Witness for the amended C2: a concrete account with 4 failed attempts,
found only by the email lookup, is locked by its 5th failure at time 0 and
is active again at the expiry time, with the counter reset by the following
successful login. -/
theorem c2_amended_witness :
    ((handleSubmit ⟨4, none, none, "active", "active", none, none, none, true, false⟩
        0 (.err .wrongPassword)).1).lockedUntil = some 0
    ∧ isLockedAt ((handleSubmit (handleSubmit
          ⟨4, none, none, "active", "active", none, none, none, true, false⟩
          0 (.err .wrongPassword)).1 900000 .ok).1) 900000 = false :=
  ⟨(c2_amended ⟨4, none, none, "active", "active", none, none, none, true, false⟩ 0
      .wrongPassword (Or.inr ⟨rfl, rfl⟩) rfl rfl (by decide)).1,
   ((c2_amended ⟨4, none, none, "active", "active", none, none, none, true, false⟩ 0
      .wrongPassword (Or.inr ⟨rfl, rfl⟩) rfl rfl (by decide)).2.2.2.2 900000 (by norm_num)).1⟩

theorem saleWrite_none_of_mismatch (snapshot : List StockItem) (sold : SoldItem)
    (h : ∀ m, findStock snapshot sold.name = some m → unitsCompatible sold m = false) :
    saleWrite snapshot sold = none := by
  cases hf : findStock snapshot sold.name with
  | none => simp [saleWrite, hf]
  | some m => simp [saleWrite, hf, h m hf]

theorem restoreWrite_none_of_mismatch (snapshot : List StockItem) (sold : SoldItem)
    (h : ∀ m, findStock snapshot sold.name = some m → unitsCompatible sold m = false) :
    restoreWrite snapshot sold = none := by
  cases hf : findStock snapshot sold.name with
  | none => simp [restoreWrite, hf]
  | some m => simp [restoreWrite, hf, h m hf]

theorem updateStockQuantity_id_of_no_write (shopId : String) (items : List SoldItem)
    (stock : List StockItem)
    (h : ∀ sold ∈ items, saleWrite (shopSnapshot shopId stock) sold = none) :
    updateStockQuantity shopId items stock = stock := by
  rw [updateStockQuantity_char]
  have hz : ∀ i, lastWrite (saleWrite (shopSnapshot shopId stock)) items i = none := by
    intro i
    apply lastWriteFrom_of_no_key
    intro sold hs p hp
    rw [h sold hs] at hp
    exact absurd hp (Option.noConfusion)
  have hfun : setQ (lastWrite (saleWrite (shopSnapshot shopId stock)) items)
      = setQ (fun _ => none) := by
    unfold setQ
    funext e
    rw [hz e.id]
  rw [hfun, map_setQ_none]

theorem restoreStockQuantity_id_of_no_write (shopId : String) (items : List SoldItem)
    (stock : List StockItem)
    (h : ∀ sold ∈ items, restoreWrite (shopSnapshot shopId stock) sold = none) :
    restoreStockQuantity shopId items stock = stock := by
  rw [restoreStockQuantity_char]
  have hz : ∀ i, lastWrite (restoreWrite (shopSnapshot shopId stock)) items i = none := by
    intro i
    apply lastWriteFrom_of_no_key
    intro sold hs p hp
    rw [h sold hs] at hp
    exact absurd hp (Option.noConfusion)
  have hfun : setQ (lastWrite (restoreWrite (shopSnapshot shopId stock)) items)
      = setQ (fun _ => none) := by
    unfold setQ
    funext e
    rw [hz e.id]
  rw [hfun, map_setQ_none]

theorem unitsCompatible_false_of_mismatch (sold : SoldItem) (m : StockItem)
    (hpresent : sold.quantityUnit.isSome = true)
    (hdiff : sold.quantityUnit ≠ m.quantityUnit) :
    unitsCompatible sold m = false := by
  obtain ⟨u, hu⟩ := Option.isSome_iff_exists.mp hpresent
  unfold unitsCompatible
  rw [hu]
  rw [hu] at hdiff
  simp only [Option.isNone_some, Bool.false_or]
  exact beq_eq_false_iff_ne.mpr hdiff

/-- Claim C7: a sold or restored line whose quantityUnit is present but
differs from the matched stock item quantityUnit is skipped entirely by both
the save decrement and the delete restore (receiptUtils.js lines 258-268 and
294-303): the single update resolves to a no-op, and a receipt all of whose
lines mismatch this way leaves the whole stock collection unchanged. -/
theorem c7_unit_mismatch_skips :
    (∀ (snapshot stock : List StockItem) (sold : SoldItem) (m : StockItem),
        findStock snapshot sold.name = some m →
        sold.quantityUnit.isSome = true →
        sold.quantityUnit ≠ m.quantityUnit →
        applySale snapshot stock sold = stock ∧ applyRestore snapshot stock sold = stock)
  ∧ (∀ (shopId : String) (items : List SoldItem) (stock : List StockItem),
        (∀ sold ∈ items, ∀ m, findStock (shopSnapshot shopId stock) sold.name = some m →
          sold.quantityUnit.isSome = true ∧ sold.quantityUnit ≠ m.quantityUnit) →
        updateStockQuantity shopId items stock = stock
        ∧ restoreStockQuantity shopId items stock = stock) := by
  constructor
  · intro snapshot stock sold m hfind hpresent hdiff
    have hu : unitsCompatible sold m = false :=
      unitsCompatible_false_of_mismatch sold m hpresent hdiff
    constructor
    · simp [applySale, hfind, hu]
    · simp [applyRestore, hfind, hu]
  · intro shopId items stock h
    have hmis : ∀ sold ∈ items, ∀ m, findStock (shopSnapshot shopId stock) sold.name = some m →
        unitsCompatible sold m = false := by
      intro sold hs m hfind
      obtain ⟨h1, h2⟩ := h sold hs m hfind
      exact unitsCompatible_false_of_mismatch sold m h1 h2
    constructor
    · exact updateStockQuantity_id_of_no_write shopId items stock
        (fun sold hs => saleWrite_none_of_mismatch _ sold (hmis sold hs))
    · exact restoreStockQuantity_id_of_no_write shopId items stock
        (fun sold hs => restoreWrite_none_of_mismatch _ sold (hmis sold hs))

/-- Witness for C7: selling 2 kg of Apple against stock tracked in units
changes nothing in either direction. -/
theorem c7_unit_mismatch_skips_witness :
    applySale [⟨"s1", "shop", "Apple", 5, some "units"⟩] [⟨"s1", "shop", "Apple", 5, some "units"⟩]
        ⟨"Apple", 2, some "kg"⟩
      = [⟨"s1", "shop", "Apple", 5, some "units"⟩]
    ∧ applyRestore [⟨"s1", "shop", "Apple", 5, some "units"⟩]
        [⟨"s1", "shop", "Apple", 5, some "units"⟩] ⟨"Apple", 2, some "kg"⟩
      = [⟨"s1", "shop", "Apple", 5, some "units"⟩] :=
  c7_unit_mismatch_skips.1 [⟨"s1", "shop", "Apple", 5, some "units"⟩]
    [⟨"s1", "shop", "Apple", 5, some "units"⟩] ⟨"Apple", 2, some "kg"⟩
    ⟨"s1", "shop", "Apple", 5, some "units"⟩ (by decide) (by decide) (by decide)

theorem calculateTotal_some (l : List ReceiptItem) (d : ℚ) :
    calculateTotal (some l) d
      = if l.isEmpty then .num 0 else .str (toFixed2 (subtotal l - d)) := rfl

/-- Claim C10: calculateTotal returns the number 0 for a missing or empty
item list; for a non-empty list it returns the string rendering, at two
decimal places, of the items sum of price times quantity minus the discount,
with no lower bound: whenever the discount exceeds the subtotal the rendered
total carries a leading minus sign, it is not clamped to zero
(receiptUtils.js lines 12-17). -/
theorem c10_calculateTotal :
    (∀ d : ℚ, calculateTotal none d = .num 0)
  ∧ (∀ d : ℚ, calculateTotal (some []) d = .num 0)
  ∧ (∀ (l : List ReceiptItem) (d : ℚ), l ≠ [] →
      calculateTotal (some l) d = .str (toFixed2 (subtotal l - d)))
  ∧ (∀ (l : List ReceiptItem) (d : ℚ), l ≠ [] → subtotal l < d →
      ∃ r : String, calculateTotal (some l) d = .str ("-" ++ r)) := by
  refine ⟨fun d => rfl, fun d => rfl, ?_, ?_⟩
  · intro l d hl
    rw [calculateTotal_some]
    rw [if_neg (fun hcontra => hl (List.isEmpty_iff.mp hcontra))]
  · intro l d hl hlt
    rw [calculateTotal_some]
    rw [if_neg (fun hcontra => hl (List.isEmpty_iff.mp hcontra))]
    unfold toFixed2
    have hneg : subtotal l - d < 0 := sub_neg.mpr hlt
    rw [if_pos hneg]
    exact ⟨_, rfl⟩

/-- Witness for C10: one line of 3 units at price 2 with a discount of 10
renders as the negative string form. -/
theorem c10_calculateTotal_witness :
    calculateTotal (some [⟨2, 3⟩]) 10 = .str (toFixed2 (subtotal [⟨2, 3⟩] - 10))
  ∧ ∃ r : String, calculateTotal (some [⟨2, 3⟩]) 10 = .str ("-" ++ r) :=
  ⟨c10_calculateTotal.2.2.1 [⟨2, 3⟩] 10 (by decide),
   c10_calculateTotal.2.2.2 [⟨2, 3⟩] 10 (by decide) (by norm_num [subtotal])⟩

/-- Witness for the amended C4: a found item carries the searched name, and a
store whose only item is named Apple is untouched by a sale of pear. -/
theorem c4_exact_match_witness :
    (⟨"s1", "shop", "Apple", (5 : ℚ), none⟩ : StockItem).name = "Apple"
  ∧ updateStockQuantity "shop" [⟨"pear", 1, none⟩] [⟨"s1", "shop", "Apple", 5, none⟩]
      = [⟨"s1", "shop", "Apple", 5, none⟩] :=
  ⟨c4_exact_match.1 [⟨"s1", "shop", "Apple", 5, none⟩] "Apple" ⟨"s1", "shop", "Apple", 5, none⟩
      (by decide),
   c4_exact_match.2.1 "shop" [⟨"pear", 1, none⟩] [⟨"s1", "shop", "Apple", 5, none⟩]
      (by decide)⟩

end Billing
